import Mathlib

/-!
Verification of the rrtc SFU server (Rust sources under src/src/) against its
natural-language specification.  Rust data types are embedded as Lean
structures and inductives; the stateful operations are embedded as pure
functions on explicit state; the two lock-based concurrent operations
(Peer flag access, RoomManager.get_or_create_room) are embedded as small
step machines driven by an explicit interleaving schedule, one step per
critical section of the source.  HashMap is embedded as an association
list with insert/lookup/erase mirroring the map operations the source
performs.
-/

namespace Rrtc

/-- Track kinds, src/src/peer.rs lines 25-30 (enum TrackType). -/
inductive TrackType where
  | Camera
  | Screen
  | Audio
deriving DecidableEq, Repr

/-- RTP codec kind of a track (webrtc RTPCodecType: Audio or Video), the
second component matched by the relay loop (src/src/room.rs line 245). -/
inductive CodecKind where
  | Audio
  | Video
deriving DecidableEq, Repr

/-- TrackType::from_track_id, src/src/peer.rs lines 33-41: substring tests
on the track id, "screen" first, then "audio", otherwise Camera.  A Rust
string is embedded as its character list and str::contains as the
infix-sublist relation. -/
def TrackType.from_track_id (track_id : List Char) : TrackType :=
  if "screen".toList <:+: track_id then TrackType.Screen
  else if "audio".toList <:+: track_id then TrackType.Audio
  else TrackType.Camera

/-- Configuration of one ICE server, src/src/config.rs lines 10-20. -/
structure IceServerConfig where
  urls : List String
  username : Option String
  credential : Option String
deriving DecidableEq, Repr

/-- ServerConfig, src/src/config.rs lines 38-79. -/
structure ServerConfig where
  signaling_port : Nat
  listen_address : String
  ice_servers : List IceServerConfig
  max_participants_per_room : Nat
  connection_timeout_secs : Nat
  verbose_logging : Bool
  cleanup_interval_secs : Nat
  tls_enabled : Bool
  tls_cert_path : Option String
  tls_key_path : Option String
deriving DecidableEq, Repr

/-- ServerConfig::validate, src/src/config.rs lines 255-275: four bail
conditions checked in order, then Ok. -/
def ServerConfig.validate (c : ServerConfig) : Except String Unit :=
  if c.signaling_port = 0 then
    Except.error "Signaling port cannot be 0"
  else if c.max_participants_per_room = 0 then
    Except.error "Max participants per room must be greater than 0"
  else if c.ice_servers.isEmpty then
    Except.error "At least one ICE server must be configured"
  else if c.tls_enabled then
    if c.tls_cert_path.isNone || c.tls_key_path.isNone then
      Except.error "TLS enabled but cert/key paths not provided"
    else Except.ok ()
  else Except.ok ()

/-- Default ServerConfig, src/src/config.rs lines 130-145 (the default_*
functions, with the three stock ICE server entries). -/
def ServerConfig.default_config : ServerConfig where
  signaling_port := 8080
  listen_address := "0.0.0.0"
  ice_servers :=
    [ { urls := ["stun:stun.l.google.com:19302"], username := none, credential := none },
      { urls := ["stun:stun1.l.google.com:19302"], username := none, credential := none },
      { urls := ["turn:coturn:3478?transport=udp", "turn:coturn:3478?transport=tcp"],
        username := some "webrtc", credential := some "secure_password_123" } ]
  max_participants_per_room := 50
  connection_timeout_secs := 300
  verbose_logging := false
  cleanup_interval_secs := 60
  tls_enabled := false
  tls_cert_path := none
  tls_key_path := none

/-! ### Association-list embedding of std/hashbrown HashMap -/

/-- HashMap::insert: replace the value at an existing key, or add the
binding. -/
def alistInsert {α β : Type} [DecidableEq α] : List (α × β) → α → β → List (α × β)
  | [], k, v => [(k, v)]
  | (a, b) :: t, k, v =>
    if a = k then (k, v) :: t else (a, b) :: alistInsert t k v

/-- HashMap::get (cloned): the value at a key, if present. -/
def alistLookup {α β : Type} [DecidableEq α] : List (α × β) → α → Option β
  | [], _ => none
  | (a, b) :: t, k => if a = k then some b else alistLookup t k

/-- HashMap::remove, map part: the list without the bindings for a key. -/
def alistErase {α β : Type} [DecidableEq α] : List (α × β) → α → List (α × β)
  | [], _ => []
  | (a, b) :: t, k =>
    if a = k then alistErase t k else (a, b) :: alistErase t k

/-! ### Signaling messages, src/src/messages.rs -/

/-- ParticipantInfo, src/src/messages.rs lines 120-127. -/
structure ParticipantInfo where
  id : String
  name : String
  muted : Bool
  video_on : Bool
  screen_sharing : Bool
deriving DecidableEq, Repr

/-- ServerMessage, src/src/messages.rs lines 55-117. -/
inductive ServerMessage where
  | Joined (your_id : String) (participants : List ParticipantInfo)
  | Answer (sdp : String)
  | Offer (sdp : String)
  | Candidate (candidate : String)
  | ParticipantJoined (id : String) (name : String)
  | ParticipantLeft (participant_id : String)
  | StateUpdate (participant_id : String) (muted video_on screen_sharing : Bool)
  | Participants (participants : List ParticipantInfo)
  | ScreenShareStarted (participant_id : String)
  | ScreenShareStopped (participant_id : String)
  | Pong
  | Error (message : String) (code : Option Nat)
  | IceGatheringComplete
deriving DecidableEq, Repr

/-! ### Peer and Room, src/src/peer.rs and src/src/room.rs -/

/-- LocalTrack, src/src/peer.rs lines 46-50: the two components the relay
loop matches on, plus a token standing for the identity of the underlying
TrackLocalStaticRTP object. -/
structure LocalTrack where
  track_type : TrackType
  kind : CodecKind
  tok : Nat
deriving DecidableEq, Repr

/-- Peer, src/src/peer.rs lines 54-63.  `tok` stands for the identity of
the peer's ws_tx channel (the destination of send_message); the three flag
fields model the contents of the three RwLock cells. -/
structure Peer where
  id : String
  name : String
  tok : Nat
  muted : Bool
  video_on : Bool
  screen_sharing : Bool
  local_tracks : List LocalTrack
deriving DecidableEq, Repr

/-- The peers map of a Room, src/src/room.rs line 16. -/
abbrev RoomPeers := List (String × Peer)

/-- Replace a peer's three flags, leaving identity and tracks unchanged
(used to state that the relay loop does not read the flags). -/
def setFlags (p : Peer) (m v s : Bool) : Peer :=
  { p with muted := m, video_on := v, screen_sharing := s }

/-- The inner track search of one relay iteration, src/src/room.rs lines
241-279: the first local track of the recipient whose track_type and
codec kind match the relayed track (the source loop sets found_track and
breaks at the first match). -/
def findRelayTrack (tracks : List LocalTrack) (tt : TrackType) (k : CodecKind) :
    Option LocalTrack :=
  tracks.find? (fun lt => lt.track_type = tt ∧ lt.kind = k)

/-- One iteration of relay_track's fan-out, src/src/room.rs lines 217-288:
for each peer in the map, skip the publisher (lines 219-221), otherwise
attempt one write_rtp on the first matching local track if there is one.
The result lists the attempted writes as (recipient id, target track). -/
def relayWriteAttempts (peers : RoomPeers) (from_id : String)
    (tt : TrackType) (k : CodecKind) : List (String × LocalTrack) :=
  peers.filterMap (fun q =>
    if q.1 = from_id then none
    else (findRelayTrack q.2.local_tracks tt k).map (fun lt => (q.1, lt)))

/-- Room::add_peer, src/src/room.rs lines 30-51: notify every peer
currently in the map with ParticipantJoined, then insert the new peer.
Returns the new map and the sent messages as (channel token, message). -/
def addPeer (peers : RoomPeers) (p : Peer) :
    RoomPeers × List (Nat × ServerMessage) :=
  let msgs := peers.map (fun q => (q.2.tok, ServerMessage.ParticipantJoined p.id p.name))
  (alistInsert peers p.id p, msgs)

/-- Outcome of Room::remove_peer: the new map, the channel tokens of the
peers whose connection was closed, and the sent messages. -/
structure RemoveOutcome where
  map : RoomPeers
  closed : List Nat
  msgs : List (Nat × ServerMessage)
deriving DecidableEq, Repr

/-- Room::remove_peer, src/src/room.rs lines 54-78: remove the binding (if
any) and close that peer, then broadcast ParticipantLeft to every peer
remaining in the map — the broadcast loop runs whether or not the id was
present. -/
def removePeer (peers : RoomPeers) (peer_id : String) : RemoveOutcome :=
  let removed := alistLookup peers peer_id
  let rest := alistErase peers peer_id
  { map := rest
    closed := match removed with
      | some q => [q.tok]
      | none => []
    msgs := rest.map (fun q => (q.2.tok, ServerMessage.ParticipantLeft peer_id)) }

/-- RoomManager::cleanup_empty_room, src/src/room.rs lines 342-351: look
the room up; if it exists and its peer map is empty, remove it and return
true, else leave the map unchanged and return false.  The manager state is
the rooms map, each room reduced to its peers map. -/
def cleanupEmptyRoom (rooms : List (String × RoomPeers)) (room_id : String) :
    List (String × RoomPeers) × Bool :=
  match alistLookup rooms room_id with
  | some ps => if ps.isEmpty then (alistErase rooms room_id, true) else (rooms, false)
  | none => (rooms, false)

/-! ### The str0m connection handler, src/src/main.rs -/

/-- Peer, src/src/main.rs lines 51-60 (signaling-relevant fields; `tok`
stands for the identity of the peer's ws_send channel). -/
structure MainPeer where
  participant_id : String
  name : String
  tok : Nat
  muted : Bool
  video_on : Bool
  screen_sharing : Bool
deriving DecidableEq, Repr

/-- Room, src/src/main.rs lines 62-65.  SocketAddr is embedded as Nat. -/
structure MainRoom where
  peers : List (String × MainPeer)
  addr_to_participant : List (Nat × String)
deriving DecidableEq, Repr

/-- ServerMessage, src/src/main.rs lines 36-49.  Note the enum has no
Error variant and no participant_left variant. -/
inductive MainServerMessage where
  | Joined (your_id : String)
  | Answer (sdp : String)
  | Candidate (candidate : String)
  | ParticipantJoined (id : String) (name : String)
  | StateUpdate (participant_id : String) (muted video_on screen_sharing : Bool)
deriving DecidableEq, Repr

/-- The room a Join lands in: Entry::or_insert_with of an empty Room,
src/src/main.rs lines 193-196. -/
def mainRoomOf (rooms : List (String × MainRoom)) (room_id : String) : MainRoom :=
  (alistLookup rooms room_id).getD { peers := [], addr_to_participant := [] }

/-- Number of peers a room currently holds (Room.peers.len()). -/
def mainPeerCount (rooms : List (String × MainRoom)) (room_id : String) : Nat :=
  (mainRoomOf rooms room_id).peers.length

/-- The join handling of handle_ws_connection, src/src/main.rs lines
192-233: resolve (or create) the room, record the client address, insert
a Peer with the default flags, send Joined{your_id} to the joiner, then
ParticipantJoined to every other peer in the (post-insert) map.  Returns
the new rooms map and the sent messages as (channel token, message). -/
def joinStep (rooms : List (String × MainRoom))
    (room_id participant_id name : String) (client_addr tok : Nat) :
    List (String × MainRoom) × List (Nat × MainServerMessage) :=
  let room0 := mainRoomOf rooms room_id
  let room1 := { room0 with
    addr_to_participant := alistInsert room0.addr_to_participant client_addr participant_id }
  let newPeer : MainPeer :=
    { participant_id := participant_id, name := name, tok := tok,
      muted := false, video_on := true, screen_sharing := false }
  let room2 := { room1 with peers := alistInsert room1.peers participant_id newPeer }
  let notifications := room2.peers.filterMap (fun q =>
    if q.1 = participant_id then none
    else some (q.2.tok, MainServerMessage.ParticipantJoined participant_id name))
  (alistInsert rooms room_id room2,
   (tok, MainServerMessage.Joined participant_id) :: notifications)

/-! ### Flag-triple race machine, src/src/peer.rs lines 257-274

update_state acquires three write locks in turn (muted, video_on,
screen_sharing) and get_state three read locks in the same order; each
lock acquisition is one atomic step.  A schedule is a list of booleans:
true runs the next writer step, false the next reader step; when the
schedule is exhausted both operations run to completion. -/

/-- The three RwLock<bool> cells of a Peer. -/
structure FlagStore where
  muted : Bool
  video_on : Bool
  screen_sharing : Bool
deriving DecidableEq, Repr

/-- Joint state of one update_state call (program counter wpc) and one
get_state call (program counter rpc) over the shared store.  got_*
hold the values get_state has read so far. -/
structure FlagRace where
  store : FlagStore
  wpc : Nat
  rpc : Nat
  got_muted : Bool
  got_video : Bool
  got_screen : Bool
deriving DecidableEq, Repr

/-- One step of update_state(m, v, s): the next single-field locked write
(src/src/peer.rs lines 258-260). -/
def writeStep (m v s : Bool) (st : FlagRace) : FlagRace :=
  if st.wpc = 0 then { st with store := { st.store with muted := m }, wpc := 1 }
  else if st.wpc = 1 then { st with store := { st.store with video_on := v }, wpc := 2 }
  else if st.wpc = 2 then { st with store := { st.store with screen_sharing := s }, wpc := 3 }
  else st

/-- One step of get_state(): the next single-field locked read
(src/src/peer.rs lines 270-272). -/
def readStep (st : FlagRace) : FlagRace :=
  if st.rpc = 0 then { st with got_muted := st.store.muted, rpc := 1 }
  else if st.rpc = 1 then { st with got_video := st.store.video_on, rpc := 2 }
  else if st.rpc = 2 then { st with got_screen := st.store.screen_sharing, rpc := 3 }
  else st

/-- Run a schedule, then let both calls finish. -/
def raceRun (m v s : Bool) : List Bool → FlagRace → FlagRace
  | [], st =>
      writeStep m v s (writeStep m v s (writeStep m v s
        (readStep (readStep (readStep st)))))
  | c :: rest, st =>
      raceRun m v s rest (if c then writeStep m v s st else readStep st)

/-- Both calls poised to start over the flag store `pre`. -/
def flagRaceInit (pre : FlagStore) : FlagRace :=
  { store := pre, wpc := 0, rpc := 0,
    got_muted := false, got_video := false, got_screen := false }

/-- The triple returned by a get_state() racing one update_state(m, v, s)
from pre-state `pre` under the given interleaving schedule. -/
def flagRaceResult (pre : FlagStore) (m v s : Bool) (sched : List Bool) :
    Bool × Bool × Bool :=
  ((raceRun m v s sched (flagRaceInit pre)).got_muted,
   (raceRun m v s sched (flagRaceInit pre)).got_video,
   (raceRun m v s sched (flagRaceInit pre)).got_screen)

/-- Invariant of the flag race: every store field and every completed read
holds the pre-state value or the updated value of its own field. -/
def FlagInv (pre : FlagStore) (m v s : Bool) (st : FlagRace) : Prop :=
  (st.store.muted = pre.muted ∨ st.store.muted = m) ∧
  (st.store.video_on = pre.video_on ∨ st.store.video_on = v) ∧
  (st.store.screen_sharing = pre.screen_sharing ∨ st.store.screen_sharing = s) ∧
  (1 ≤ st.rpc → (st.got_muted = pre.muted ∨ st.got_muted = m)) ∧
  (2 ≤ st.rpc → (st.got_video = pre.video_on ∨ st.got_video = v)) ∧
  (3 ≤ st.rpc → (st.got_screen = pre.screen_sharing ∨ st.got_screen = s))

/-! ### get_or_create_room race machine, src/src/room.rs lines 320-334

The source takes a read lock for the lookup, drops it, and only then takes
the write lock for the insert; a Room instance is embedded as the Nat
token Room::new hands out (next counter).  Each call is two atomic steps:
step 0 the locked lookup (returning early on a hit), step 1 the creation
plus locked insert. -/

/-- Joint state of two get_or_create_room calls over the shared rooms
map.  `next` numbers Room instances in creation order; pc = 2 means the
call has returned, and ret holds its Room instance. -/
structure RoomsRace where
  map : List (String × Nat)
  next : Nat
  pc1 : Nat
  pc2 : Nat
  ret1 : Option Nat
  ret2 : Option Nat
deriving DecidableEq, Repr

/-- One step of the first call for room id `rid`. -/
def gcStep1 (rid : String) (st : RoomsRace) : RoomsRace :=
  if st.pc1 = 0 then
    match alistLookup st.map rid with
    | some r => { st with ret1 := some r, pc1 := 2 }
    | none => { st with pc1 := 1 }
  else if st.pc1 = 1 then
    { st with
      map := alistInsert st.map rid st.next
      next := st.next + 1
      ret1 := some st.next
      pc1 := 2 }
  else st

/-- One step of the second call for room id `rid`. -/
def gcStep2 (rid : String) (st : RoomsRace) : RoomsRace :=
  if st.pc2 = 0 then
    match alistLookup st.map rid with
    | some r => { st with ret2 := some r, pc2 := 2 }
    | none => { st with pc2 := 1 }
  else if st.pc2 = 1 then
    { st with
      map := alistInsert st.map rid st.next
      next := st.next + 1
      ret2 := some st.next
      pc2 := 2 }
  else st

/-- Run a schedule (true steps call 1, false steps call 2), then let both
calls finish, call 1 first. -/
def gcRun (rid : String) : List Bool → RoomsRace → RoomsRace
  | [], st => gcStep2 rid (gcStep2 rid (gcStep1 rid (gcStep1 rid st)))
  | c :: rest, st => gcRun rid rest (if c then gcStep1 rid st else gcStep2 rid st)

/-- Both calls poised to start over the given rooms map. -/
def gcInit (map : List (String × Nat)) (next : Nat) : RoomsRace :=
  { map := map, next := next, pc1 := 0, pc2 := 0, ret1 := none, ret2 := none }

/-! ### Concrete room and peer values used by the witnesses and
counterexamples -/

/-- A publisher with one local track per type. -/
def relayPeerA : Peer :=
  { id := "a", name := "Alice", tok := 1,
    muted := false, video_on := true, screen_sharing := false,
    local_tracks :=
      [ { track_type := TrackType.Audio, kind := CodecKind.Audio, tok := 10 },
        { track_type := TrackType.Camera, kind := CodecKind.Video, tok := 11 },
        { track_type := TrackType.Screen, kind := CodecKind.Video, tok := 12 } ] }

/-- A recipient that is muted, has video off and is not screen sharing,
yet owns matching local tracks of every type. -/
def relayPeerB : Peer :=
  { id := "b", name := "Bob", tok := 2,
    muted := true, video_on := false, screen_sharing := false,
    local_tracks :=
      [ { track_type := TrackType.Audio, kind := CodecKind.Audio, tok := 20 },
        { track_type := TrackType.Camera, kind := CodecKind.Video, tok := 21 },
        { track_type := TrackType.Screen, kind := CodecKind.Video, tok := 22 } ] }

/-- A two-peer room: publisher "a" and flag-suppressed recipient "b". -/
def relayDemoPeers : RoomPeers := [("a", relayPeerA), ("b", relayPeerB)]

/-- A fresh third peer for the add_peer witness. -/
def relayPeerC : Peer :=
  { id := "c", name := "Cara", tok := 3,
    muted := false, video_on := true, screen_sharing := false,
    local_tracks := [] }

/-- A manager holding one populated room and one empty room. -/
def cleanupDemoRooms : List (String × RoomPeers) :=
  [("busy", [("a", relayPeerA)]), ("idle", [])]

/-- str0m-handler peers p1 and p2 already in room "r". -/
def mainPeerOne : MainPeer :=
  { participant_id := "p1", name := "Alice", tok := 1,
    muted := false, video_on := true, screen_sharing := false }

/-- Second resident of room "r". -/
def mainPeerTwo : MainPeer :=
  { participant_id := "p2", name := "Bob", tok := 2,
    muted := false, video_on := true, screen_sharing := false }

/-- A rooms map whose room "r" already holds two peers. -/
def mainDemoRooms : List (String × MainRoom) :=
  [("r", { peers := [("p1", mainPeerOne), ("p2", mainPeerTwo)],
           addr_to_participant := [] })]

/-- The default configuration with max_participants_per_room set to 2, so
that room "r" of mainDemoRooms is full. -/
def cfgCapTwo : ServerConfig :=
  { ServerConfig.default_config with max_participants_per_room := 2 }

end Rrtc

namespace Rrtc

/-! ### Helper lemmas on the association-list map -/

/-- Looking up the key just inserted yields the inserted value. -/
theorem alistLookup_alistInsert_self {α β : Type} [DecidableEq α]
    (l : List (α × β)) (k : α) (v : β) :
    alistLookup (alistInsert l k v) k = some v := by
  induction l with
  | nil => simp [alistInsert, alistLookup]
  | cons hd t ih =>
    rcases hd with ⟨a, b⟩
    by_cases h : a = k
    · simp [alistInsert, alistLookup, h]
    · simp [alistInsert, alistLookup, h, ih]

/-- Inserting a key not yet bound grows the list by one binding. -/
theorem alistInsert_length_of_fresh {α β : Type} [DecidableEq α]
    (l : List (α × β)) (k : α) (v : β) (h : k ∉ l.map Prod.fst) :
    (alistInsert l k v).length = l.length + 1 := by
  induction l with
  | nil => simp [alistInsert]
  | cons hd t ih =>
    rcases hd with ⟨a, b⟩
    simp only [List.map_cons, List.mem_cons] at h
    push_neg at h
    have ha : a ≠ k := fun hh => h.1 hh.symm
    simp [alistInsert, ha, ih h.2]

/-- A binding in the map makes the lookup succeed with its value, when
keys are unique. -/
theorem alistLookup_eq_some_of_mem {α β : Type} [DecidableEq α]
    {l : List (α × β)} {k : α} {v : β}
    (hnd : (l.map Prod.fst).Nodup) (hm : (k, v) ∈ l) :
    alistLookup l k = some v := by
  induction l with
  | nil => simp at hm
  | cons hd t ih =>
    rcases hd with ⟨a, b⟩
    simp only [List.map_cons, List.nodup_cons] at hnd
    rcases List.mem_cons.mp hm with h | h
    · rcases Prod.mk.injEq .. ▸ h with ⟨h1, h2⟩
      simp [alistLookup, h1.symm, h2]
    · have hak : a ≠ k := by
        intro hh
        apply hnd.1
        subst hh
        exact List.mem_map.mpr ⟨(a, v), h, rfl⟩
      simp [alistLookup, hak, ih hnd.2 h]

/-- A successful lookup comes from a binding in the map. -/
theorem mem_of_alistLookup_eq_some {α β : Type} [DecidableEq α]
    {l : List (α × β)} {k : α} {v : β}
    (h : alistLookup l k = some v) : (k, v) ∈ l := by
  induction l with
  | nil => simp [alistLookup] at h
  | cons hd t ih =>
    rcases hd with ⟨a, b⟩
    by_cases hak : a = k
    · subst hak
      simp [alistLookup] at h
      simp [h]
    · simp [alistLookup, hak] at h
      exact List.mem_cons_of_mem _ (ih h)

/-- Erasing a key keeps every binding with a different key. -/
theorem mem_alistErase_of_ne {α β : Type} [DecidableEq α]
    {l : List (α × β)} {k k2 : α} {v : β}
    (hne : k2 ≠ k) (hm : (k2, v) ∈ l) : (k2, v) ∈ alistErase l k := by
  induction l with
  | nil => simp at hm
  | cons hd t ih =>
    rcases hd with ⟨a, b⟩
    rcases List.mem_cons.mp hm with h | h
    · rcases Prod.mk.injEq .. ▸ h with ⟨h1, h2⟩
      subst h1
      simp [alistErase, hne, h2]
    · by_cases hak : a = k
      · simpa [alistErase, hak] using ih h
      · simpa [alistErase, hak] using Or.inr (ih h)

/-- Erasing an absent key is the identity. -/
theorem alistErase_of_fresh {α β : Type} [DecidableEq α]
    (l : List (α × β)) (k : α) (h : k ∉ l.map Prod.fst) :
    alistErase l k = l := by
  induction l with
  | nil => simp [alistErase]
  | cons hd t ih =>
    rcases hd with ⟨a, b⟩
    simp only [List.map_cons, List.mem_cons] at h
    push_neg at h
    have ha : a ≠ k := fun hh => h.1 hh.symm
    simp [alistErase, ha, ih h.2]

/-- An absent key makes the lookup fail. -/
theorem alistLookup_eq_none_of_fresh {α β : Type} [DecidableEq α]
    (l : List (α × β)) (k : α) (h : k ∉ l.map Prod.fst) :
    alistLookup l k = none := by
  induction l with
  | nil => simp [alistLookup]
  | cons hd t ih =>
    rcases hd with ⟨a, b⟩
    simp only [List.map_cons, List.mem_cons] at h
    push_neg at h
    have ha : a ≠ k := fun hh => h.1 hh.symm
    simp [alistLookup, ha, ih h.2]

/-- Membership description of one relay fan-out iteration. -/
theorem mem_relayWriteAttempts {peers : RoomPeers} {from_id : String}
    {tt : TrackType} {k : CodecKind} {x : String × LocalTrack} :
    x ∈ relayWriteAttempts peers from_id tt k ↔
      ∃ p : Peer, (x.1, p) ∈ peers ∧ x.1 ≠ from_id ∧
        findRelayTrack p.local_tracks tt k = some x.2 := by
  unfold relayWriteAttempts
  rw [List.mem_filterMap]
  constructor
  · rintro ⟨⟨pid, p⟩, hmem, hf⟩
    by_cases hpub : pid = from_id
    · simp [hpub] at hf
    · simp only [hpub, if_false, Option.map_eq_some'] at hf
      rcases hf with ⟨lt, hfind, hx⟩
      subst hx
      exact ⟨p, by simpa using hmem, by simpa using hpub, by simpa using hfind⟩
  · rintro ⟨p, hmem, hpub, hfind⟩
    refine ⟨(x.1, p), hmem, ?_⟩
    simp [hpub, hfind]

/-! ### Helper lemmas on the flag race machine -/

/-- A writer step never moves the reader program counter. -/
theorem writeStep_rpc (m v s : Bool) (st : FlagRace) :
    (writeStep m v s st).rpc = st.rpc := by
  unfold writeStep
  split_ifs <;> rfl

/-- The reader program counter after one reader step. -/
theorem readStep_rpc (st : FlagRace) :
    (readStep st).rpc =
      if st.rpc = 0 then 1 else if st.rpc = 1 then 2
      else if st.rpc = 2 then 3 else st.rpc := by
  unfold readStep
  split_ifs <;> rfl

/-- Three reader steps complete the read of all three flags. -/
theorem three_reads_rpc (st : FlagRace) :
    3 ≤ (readStep (readStep (readStep st))).rpc := by
  have h1 := readStep_rpc st
  have h2 := readStep_rpc (readStep st)
  have h3 := readStep_rpc (readStep (readStep st))
  split_ifs at h1 h2 h3 <;> omega

/-- A writer step preserves the race invariant. -/
theorem flagInv_writeStep (pre : FlagStore) (m v s : Bool) (st : FlagRace)
    (h : FlagInv pre m v s st) : FlagInv pre m v s (writeStep m v s st) := by
  rcases h with ⟨h1, h2, h3, h4, h5, h6⟩
  unfold writeStep
  split_ifs with e0 e1 e2
  · exact ⟨Or.inr rfl, h2, h3, h4, h5, h6⟩
  · exact ⟨h1, Or.inr rfl, h3, h4, h5, h6⟩
  · exact ⟨h1, h2, Or.inr rfl, h4, h5, h6⟩
  · exact ⟨h1, h2, h3, h4, h5, h6⟩

/-- A reader step preserves the race invariant. -/
theorem flagInv_readStep (pre : FlagStore) (m v s : Bool) (st : FlagRace)
    (h : FlagInv pre m v s st) : FlagInv pre m v s (readStep st) := by
  rcases h with ⟨h1, h2, h3, h4, h5, h6⟩
  unfold readStep
  split_ifs with e0 e1 e2
  · refine ⟨h1, h2, h3, fun _ => h1, ?_, ?_⟩
    · intro hh
      simp at hh
    · intro hh
      simp at hh
  · refine ⟨h1, h2, h3, fun _ => h4 (by omega), fun _ => h2, ?_⟩
    · intro hh
      simp at hh
  · exact ⟨h1, h2, h3, fun _ => h4 (by omega), fun _ => h5 (by omega), fun _ => h3⟩
  · exact ⟨h1, h2, h3, h4, h5, h6⟩

/-- Any schedule, run to completion, preserves the invariant and finishes
the reader. -/
theorem flagInv_raceRun (pre : FlagStore) (m v s : Bool) (sched : List Bool) :
    ∀ st : FlagRace, FlagInv pre m v s st →
      FlagInv pre m v s (raceRun m v s sched st) ∧
      3 ≤ (raceRun m v s sched st).rpc := by
  induction sched with
  | nil =>
    intro st h
    unfold raceRun
    constructor
    · exact flagInv_writeStep _ _ _ _ _ (flagInv_writeStep _ _ _ _ _
        (flagInv_writeStep _ _ _ _ _ (flagInv_readStep _ _ _ _ _
          (flagInv_readStep _ _ _ _ _ (flagInv_readStep _ _ _ _ _ h)))))
    · rw [writeStep_rpc, writeStep_rpc, writeStep_rpc]
      exact three_reads_rpc st
  | cons c rest ih =>
    intro st h
    unfold raceRun
    cases c
    · simpa using ih (readStep st) (flagInv_readStep _ _ _ _ _ h)
    · simpa using ih (writeStep m v s st) (flagInv_writeStep _ _ _ _ _ h)

/-! ### Helper lemma on the get_or_create_room race machine -/

/-- Running call 1 to completion and then call 2 (schedule [true, true])
makes both calls return the same Room instance. -/
theorem gcRun_sequential_same (map : List (String × Nat)) (next : Nat)
    (rid : String) :
    (gcRun rid [true, true] (gcInit map next)).ret1
      = (gcRun rid [true, true] (gcInit map next)).ret2 ∧
    ((gcRun rid [true, true] (gcInit map next)).ret1).isSome := by
  cases h : alistLookup map rid with
  | some r =>
    simp [gcRun, gcStep1, gcStep2, gcInit, h]
  | none =>
    simp [gcRun, gcStep1, gcStep2, gcInit, h, alistLookup_alistInsert_self]

/-! ### The claims -/

/-- Claim C9: ServerConfig::validate fails exactly on the four listed
conditions (zero signaling_port, zero max_participants_per_room, empty
ice_servers, tls_enabled without cert or key path) and succeeds on every
configuration meeting none of them. -/
theorem validate_ok_iff_no_failure_condition (c : ServerConfig) :
    c.validate = Except.ok () ↔
      (c.signaling_port ≠ 0 ∧
       c.max_participants_per_room ≠ 0 ∧
       c.ice_servers ≠ [] ∧
       ¬(c.tls_enabled = true ∧ (c.tls_cert_path = none ∨ c.tls_key_path = none))) := by
  unfold ServerConfig.validate
  rcases c with ⟨port, addr, ice, maxp, cto, vlog, clean, tls, cert, key⟩
  simp only
  by_cases h1 : port = 0
  · simp [h1]
  · by_cases h2 : maxp = 0
    · simp [h1, h2]
    · by_cases h3 : ice.isEmpty
      · simp [h1, h2, h3, List.isEmpty_iff.mp h3]
      · have h3e : ice ≠ [] := by
          intro hh
          rw [hh] at h3
          simp at h3
        by_cases h4 : tls
        · by_cases h5 : cert.isNone || key.isNone
          · have h5p : cert = none ∨ key = none := by
              rcases Bool.or_eq_true_iff.mp h5 with h | h
              · exact Or.inl (Option.isNone_iff_eq_none.mp h)
              · exact Or.inr (Option.isNone_iff_eq_none.mp h)
            simp [h1, h2, h3, h4, h5, h3e, h5p]
          · have h5p : ¬(cert = none ∨ key = none) := by
              intro hh
              apply h5
              rcases hh with hh | hh
              · simp [hh]
              · simp [hh]
            simp [h1, h2, h3, h4, h5, h3e, h5p]
        · simp [h1, h2, h3, h4, h3e]

/-- Claim C10: track-type classification gives "screen" precedence over
"audio": ids containing "screen" map to Screen even when they also contain
"audio"; ids containing "audio" but not "screen" map to Audio; all other
ids map to Camera. -/
theorem from_track_id_screen_precedence (track_id : List Char) :
    (TrackType.from_track_id track_id = TrackType.Screen ↔
       "screen".toList <:+: track_id) ∧
    (TrackType.from_track_id track_id = TrackType.Audio ↔
       (¬ "screen".toList <:+: track_id ∧ "audio".toList <:+: track_id)) ∧
    (TrackType.from_track_id track_id = TrackType.Camera ↔
       (¬ "screen".toList <:+: track_id ∧ ¬ "audio".toList <:+: track_id)) := by
  unfold TrackType.from_track_id
  split_ifs with h1 h2
  all_goals simp_all

/-- Claim C1 counterexample: relay_track applies no subscription filter.
In a room with publisher "a" and recipient "b" that is muted, has video
off and is not screen sharing, one relay iteration still attempts a write
to "b" for an Audio packet, for a Camera packet and for a Screen packet,
contradicting the claimed skip rules at this concrete input. -/
theorem relay_flag_filter_counterexample :
    (relayPeerB.muted = true ∧
      ("b", ({ track_type := TrackType.Audio, kind := CodecKind.Audio, tok := 20 } : LocalTrack)) ∈
        relayWriteAttempts relayDemoPeers "a" TrackType.Audio CodecKind.Audio) ∧
    (relayPeerB.video_on = false ∧
      ("b", ({ track_type := TrackType.Camera, kind := CodecKind.Video, tok := 21 } : LocalTrack)) ∈
        relayWriteAttempts relayDemoPeers "a" TrackType.Camera CodecKind.Video) ∧
    (relayPeerB.screen_sharing = false ∧
      ("b", ({ track_type := TrackType.Screen, kind := CodecKind.Video, tok := 22 } : LocalTrack)) ∈
        relayWriteAttempts relayDemoPeers "a" TrackType.Screen CodecKind.Video) := by
  decide

/-- Claim C1 (amended): relay_track consults no recipient flags at all: the
write attempts of one iteration are unchanged under any reassignment of
every peer's (muted, video_on, screen_sharing) triple, and a write is
attempted to exactly the non-publisher peers holding a local track whose
track_type and codec kind match the packet, regardless of their flags. -/
theorem relay_applies_no_subscription_filter
    (peers : RoomPeers) (from_id : String) (tt : TrackType) (k : CodecKind) :
    (∀ f : String × Peer → Bool × Bool × Bool,
      relayWriteAttempts
        (peers.map (fun q => (q.1, setFlags q.2 (f q).1 (f q).2.1 (f q).2.2)))
        from_id tt k
        = relayWriteAttempts peers from_id tt k) ∧
    (∀ x : String × LocalTrack,
      x ∈ relayWriteAttempts peers from_id tt k ↔
        ∃ p : Peer, (x.1, p) ∈ peers ∧ x.1 ≠ from_id ∧
          findRelayTrack p.local_tracks tt k = some x.2) := by
  constructor
  · intro f
    unfold relayWriteAttempts
    rw [List.filterMap_map]
    congr 1
  · intro x
    exact mem_relayWriteAttempts

/-- Claim C7: no self-forwarding — every write attempt of a relay
iteration targets a peer whose map key differs from the publisher. -/
theorem relay_never_writes_to_publisher
    (peers : RoomPeers) (from_id : String) (tt : TrackType) (k : CodecKind)
    (pid : String) (lt : LocalTrack)
    (h : (pid, lt) ∈ relayWriteAttempts peers from_id tt k) :
    pid ≠ from_id := by
  rcases mem_relayWriteAttempts.mp h with ⟨p, -, hne, -⟩
  exact hne

/-- Witness for claim C7 at the two-peer demo room. -/
theorem relay_never_writes_to_publisher_witness :
    (("b", ({ track_type := TrackType.Audio, kind := CodecKind.Audio, tok := 20 } : LocalTrack)) ∈
        relayWriteAttempts relayDemoPeers "a" TrackType.Audio CodecKind.Audio) ∧
    ("b" : String) ≠ "a" := by
  refine ⟨by decide, ?_⟩
  exact relay_never_writes_to_publisher relayDemoPeers "a" TrackType.Audio CodecKind.Audio
    "b" { track_type := TrackType.Audio, kind := CodecKind.Audio, tok := 20 } (by decide)

/-- Claim C5 counterexample: removing an id absent from a one-peer room
still sends ParticipantLeft to the remaining peer, so remove_peer of an
absent id is not free of messages. -/
theorem remove_absent_peer_counterexample :
    ("z" ∉ ([("a", relayPeerA)] : RoomPeers).map Prod.fst) ∧
    (removePeer [("a", relayPeerA)] "z").msgs
      = [(relayPeerA.tok, ServerMessage.ParticipantLeft "z")] ∧
    (removePeer [("a", relayPeerA)] "z").msgs ≠ [] := by
  decide

/-- Claim C5 (amended): remove_peer of an absent id leaves the peer map
unchanged and closes no connection, but it still broadcasts
ParticipantLeft{id} to every peer currently in the room (so it sends no
message only when the room is empty). -/
theorem remove_absent_peer_broadcasts_anyway
    (peers : RoomPeers) (peer_id : String)
    (h : peer_id ∉ peers.map Prod.fst) :
    (removePeer peers peer_id).map = peers ∧
    (removePeer peers peer_id).closed = [] ∧
    (removePeer peers peer_id).msgs =
      peers.map (fun q => (q.2.tok, ServerMessage.ParticipantLeft peer_id)) := by
  simp only [removePeer]
  rw [alistErase_of_fresh _ _ h, alistLookup_eq_none_of_fresh _ _ h]
  exact ⟨rfl, rfl, rfl⟩

/-- Witness for the amended claim C5. -/
theorem remove_absent_peer_broadcasts_anyway_witness :
    ("x" ∉ ([("a", relayPeerA)] : RoomPeers).map Prod.fst) ∧
    (removePeer [("a", relayPeerA)] "x").map = [("a", relayPeerA)] := by
  refine ⟨by decide, ?_⟩
  exact (remove_absent_peer_broadcasts_anyway [("a", relayPeerA)] "x" (by decide)).1

/-- Claim C6: add_peer sends ParticipantJoined to exactly the peers already
in the map before the insert — every sent message is the new peer's join
notice addressed to a pre-insert channel, every pre-insert peer gets it,
and a joining peer whose channel is fresh receives nothing. -/
theorem add_peer_notifies_only_preexisting (peers : RoomPeers) (p : Peer) :
    (∀ t msg, (t, msg) ∈ (addPeer peers p).2 →
      msg = ServerMessage.ParticipantJoined p.id p.name ∧
        t ∈ peers.map (fun q => q.2.tok)) ∧
    (∀ q, q ∈ peers →
      (q.2.tok, ServerMessage.ParticipantJoined p.id p.name) ∈ (addPeer peers p).2) ∧
    (p.tok ∉ peers.map (fun q => q.2.tok) →
      ∀ msg, (p.tok, msg) ∉ (addPeer peers p).2) := by
  have hsnd : (addPeer peers p).2
      = peers.map (fun q => (q.2.tok, ServerMessage.ParticipantJoined p.id p.name)) := rfl
  refine ⟨?_, ?_, ?_⟩
  · intro t msg hm
    rw [hsnd] at hm
    rcases List.mem_map.mp hm with ⟨q, hq, he⟩
    have h1 : q.2.tok = t := congrArg Prod.fst he
    have h2 : ServerMessage.ParticipantJoined p.id p.name = msg := congrArg Prod.snd he
    exact ⟨h2.symm, List.mem_map.mpr ⟨q, hq, h1⟩⟩
  · intro q hq
    rw [hsnd]
    exact List.mem_map.mpr ⟨q, hq, rfl⟩
  · intro hfresh msg hm
    rw [hsnd] at hm
    rcases List.mem_map.mp hm with ⟨q, hq, he⟩
    exact hfresh (List.mem_map.mpr ⟨q, hq, congrArg Prod.fst he⟩)

/-- Witness for claim C6: the fresh peer "c" receives no message when it
joins the two-peer demo room. -/
theorem add_peer_notifies_only_preexisting_witness :
    (relayPeerC.tok ∉ relayDemoPeers.map (fun q => q.2.tok)) ∧
    ((relayPeerC.tok, ServerMessage.ParticipantJoined "c" "Cara")
      ∉ (addPeer relayDemoPeers relayPeerC).2) := by
  refine ⟨by decide, ?_⟩
  exact (add_peer_notifies_only_preexisting relayDemoPeers relayPeerC).2.2 (by decide)
    (ServerMessage.ParticipantJoined "c" "Cara")

/-- Claim C8: cleanup_empty_room removes the room iff it exists and
currently has zero peers; otherwise the rooms map is unchanged and false
is returned, and a populated room is never removed. -/
theorem cleanup_empty_room_iff_empty
    (rooms : List (String × RoomPeers)) (room_id : String)
    (hnd : (rooms.map Prod.fst).Nodup) :
    ((cleanupEmptyRoom rooms room_id).2 = true ↔
      (room_id, ([] : RoomPeers)) ∈ rooms) ∧
    ((cleanupEmptyRoom rooms room_id).2 = true →
      (cleanupEmptyRoom rooms room_id).1 = alistErase rooms room_id) ∧
    ((cleanupEmptyRoom rooms room_id).2 = false →
      (cleanupEmptyRoom rooms room_id).1 = rooms) ∧
    (∀ rid2 ps, (rid2, ps) ∈ rooms → ps ≠ [] →
      (rid2, ps) ∈ (cleanupEmptyRoom rooms room_id).1) := by
  unfold cleanupEmptyRoom
  cases h : alistLookup rooms room_id with
  | none =>
    have hnm : (room_id, ([] : RoomPeers)) ∉ rooms := by
      intro hm
      have h2 := alistLookup_eq_some_of_mem hnd hm
      rw [h] at h2
      exact Option.noConfusion h2
    refine ⟨by simp [hnm], by simp, by simp, ?_⟩
    intro rid2 ps hm hne
    simpa using hm
  | some ps =>
    by_cases hemp : ps.isEmpty
    · have hps : ps = [] := List.isEmpty_iff.mp hemp
      subst hps
      have hmem : (room_id, ([] : RoomPeers)) ∈ rooms := mem_of_alistLookup_eq_some h
      simp only [List.isEmpty_nil, if_true]
      refine ⟨by simp [hmem], by simp, by simp, ?_⟩
      intro rid2 ps2 hm hne
      have hne2 : rid2 ≠ room_id := by
        intro hh
        subst hh
        have h2 := alistLookup_eq_some_of_mem hnd hm
        rw [h] at h2
        exact hne (Option.some.inj h2).symm
      exact mem_alistErase_of_ne hne2 hm
    · have hnm : (room_id, ([] : RoomPeers)) ∉ rooms := by
        intro hm
        have h2 := alistLookup_eq_some_of_mem hnd hm
        rw [h] at h2
        have hps := Option.some.inj h2
        rw [hps] at hemp
        simp at hemp
      simp only [hemp, if_false]
      refine ⟨by simp [hnm], by simp, by simp, ?_⟩
      intro rid2 ps2 hm hne
      simpa using hm

/-- Witness for claim C8: the empty demo room "idle" is removed. -/
theorem cleanup_empty_room_iff_empty_witness :
    ((cleanupDemoRooms.map Prod.fst).Nodup) ∧
    (cleanupEmptyRoom cleanupDemoRooms "idle").2 = true := by
  refine ⟨by decide, ?_⟩
  exact (cleanup_empty_room_iff_empty cleanupDemoRooms "idle" (by decide)).1.mpr (by decide)

/-- Claim C2 counterexample: with max_participants_per_room = 2 and room
"r" already holding 2 peers, a Join for "r" is still admitted — the peer
count rises to 3, so no RoomFull rejection takes place and the peer is
added (the handler's message enum has no Error variant to send at all). -/
theorem room_full_rejection_counterexample :
    cfgCapTwo.max_participants_per_room = 2 ∧
    mainPeerCount mainDemoRooms "r" = 2 ∧
    mainPeerCount (joinStep mainDemoRooms "r" "p3" "Carol" 9 3).1 "r" = 3 := by
  decide

/-- Claim C2 (amended): the connection handler applies no capacity check —
a first-message Join is always admitted regardless of
max_participants_per_room: the peer is inserted (raising the room's count
by one when the participant id is fresh), the joiner receives
Joined{your_id} first, and every sent message is either that Joined or a
ParticipantJoined notice; no error message exists in the handler's
message type. -/
theorem join_admits_peer_unconditionally
    (rooms : List (String × MainRoom)) (room_id pid name : String)
    (client_addr tok : Nat)
    (hfresh : pid ∉ (mainRoomOf rooms room_id).peers.map Prod.fst) :
    mainPeerCount (joinStep rooms room_id pid name client_addr tok).1 room_id
      = mainPeerCount rooms room_id + 1 ∧
    ((joinStep rooms room_id pid name client_addr tok).2.head?
      = some (tok, MainServerMessage.Joined pid)) ∧
    (∀ t msg, (t, msg) ∈ (joinStep rooms room_id pid name client_addr tok).2 →
      msg = MainServerMessage.Joined pid ∨
      msg = MainServerMessage.ParticipantJoined pid name) := by
  refine ⟨?_, rfl, ?_⟩
  · show mainPeerCount (alistInsert rooms room_id
        { peers := alistInsert (mainRoomOf rooms room_id).peers pid
            { participant_id := pid, name := name, tok := tok,
              muted := false, video_on := true, screen_sharing := false },
          addr_to_participant :=
            alistInsert (mainRoomOf rooms room_id).addr_to_participant client_addr pid })
        room_id = mainPeerCount rooms room_id + 1
    unfold mainPeerCount mainRoomOf
    rw [alistLookup_alistInsert_self]
    exact alistInsert_length_of_fresh _ _ _ hfresh
  · intro t msg hm
    simp only [joinStep] at hm
    rcases List.mem_cons.mp hm with hh | hh
    · left
      exact congrArg Prod.snd hh
    · right
      rcases List.mem_filterMap.mp hh with ⟨q, hq, hf⟩
      by_cases hqp : q.1 = pid
      · rw [if_pos hqp] at hf
        exact Option.noConfusion hf
      · rw [if_neg hqp] at hf
        exact (congrArg Prod.snd (Option.some.inj hf)).symm

/-- Witness for the amended claim C2: joining the full two-peer room "r"
raises its count from 2 to 3. -/
theorem join_admits_peer_unconditionally_witness :
    ("p3" ∉ (mainRoomOf mainDemoRooms "r").peers.map Prod.fst) ∧
    mainPeerCount (joinStep mainDemoRooms "r" "p3" "Carol" 9 3).1 "r"
      = mainPeerCount mainDemoRooms "r" + 1 := by
  refine ⟨by decide, ?_⟩
  exact (join_admits_peer_unconditionally mainDemoRooms "r" "p3" "Carol" 9 3 (by decide)).1

/-- Claim C3 counterexample: from pre-state (false, false, false) with
update_state(true, true, true), the schedule that lets the reader take its
first field before the writer runs yields get_state = (false, true, true),
which is neither the pre-state nor the updated triple — a torn read. -/
theorem torn_flag_read_counterexample :
    flagRaceResult { muted := false, video_on := false, screen_sharing := false }
        true true true [false, true, true, true] = (false, true, true) ∧
    flagRaceResult { muted := false, video_on := false, screen_sharing := false }
        true true true [false, true, true, true] ≠ (false, false, false) ∧
    flagRaceResult { muted := false, video_on := false, screen_sharing := false }
        true true true [false, true, true, true] ≠ (true, true, true) := by
  decide

/-- Claim C3 (amended): the three flags sit behind three separate locks, so
a get_state concurrent with one update_state(m, v, s) returns a triple
whose every component is independently either the pre-state value or the
updated value of that component — a mixed (torn) triple is possible, only
per-field atomicity holds. -/
theorem get_state_returns_per_field_mixture
    (pre : FlagStore) (m v s : Bool) (sched : List Bool) :
    ((flagRaceResult pre m v s sched).1 = pre.muted ∨
      (flagRaceResult pre m v s sched).1 = m) ∧
    ((flagRaceResult pre m v s sched).2.1 = pre.video_on ∨
      (flagRaceResult pre m v s sched).2.1 = v) ∧
    ((flagRaceResult pre m v s sched).2.2 = pre.screen_sharing ∨
      (flagRaceResult pre m v s sched).2.2 = s) := by
  have h0 : FlagInv pre m v s (flagRaceInit pre) := by
    refine ⟨Or.inl rfl, Or.inl rfl, Or.inl rfl, ?_, ?_, ?_⟩ <;>
      intro hh <;> simp [flagRaceInit] at hh
  obtain ⟨hinv, hrpc⟩ := flagInv_raceRun pre m v s sched (flagRaceInit pre) h0
  rcases hinv with ⟨-, -, -, h4, h5, h6⟩
  unfold flagRaceResult
  exact ⟨h4 (by omega), h5 (by omega), h6 (by omega)⟩

/-- Claim C4 counterexample: from an empty manager, the interleaving in
which both calls pass the read-locked check before either inserts makes
the two get_or_create_room("x") calls create two distinct Room instances
and return different ones. -/
theorem get_or_create_room_race_counterexample :
    (gcRun "x" [true, false] (gcInit [] 0)).ret1 = some 0 ∧
    (gcRun "x" [true, false] (gcInit [] 0)).ret2 = some 1 ∧
    (gcRun "x" [true, false] (gcInit [] 0)).ret1
      ≠ (gcRun "x" [true, false] (gcInit [] 0)).ret2 := by
  decide

/-- Claim C4 (amended): get_or_create_room performs its check and its
insert in two separate critical sections.  Calls that do not overlap agree
on the returned Room instance for the same id, but two concurrent calls on
an absent id can each create a Room and return distinct instances (the
second insert replaces the first). -/
theorem get_or_create_room_not_linearizable :
    (∀ (map : List (String × Nat)) (next : Nat) (rid : String),
      (gcRun rid [true, true] (gcInit map next)).ret1
        = (gcRun rid [true, true] (gcInit map next)).ret2 ∧
      ((gcRun rid [true, true] (gcInit map next)).ret1).isSome) ∧
    ((gcRun "x" [false, true] (gcInit [] 0)).ret1 = some 0 ∧
     (gcRun "x" [false, true] (gcInit [] 0)).ret2 = some 1 ∧
     (gcRun "x" [false, true] (gcInit [] 0)).ret1
       ≠ (gcRun "x" [false, true] (gcInit [] 0)).ret2) := by
  constructor
  · intro map next rid
    exact gcRun_sequential_same map next rid
  · decide

end Rrtc
